import Mathlib

/-!
Verification development for `wsrl/networks/actor_critic_nets.py`.

Shallow embedding over the reals of the Policy head's spread computation
(`Policy.__call__`) and of the bounded-distribution transform
(`TanhMultivariateNormalDiag`), faithful to the source: machine floats are
modelled as real numbers, `jnp` elementwise operations as `List.map` /
`List.zipWith`, and Python exceptions (`raise ValueError`, failed `assert`)
as `Except String`.
-/

/-- Python runtime value passed as `fixed_std`: a Python `list` of numbers, a
scalar `int`/`float`, or some other array-like object (e.g. a `jnp.ndarray`),
which the source distinguishes with `type(x) == list` and
`isinstance(x, (int, float))`. -/
inductive PyVal where
  | pylist (xs : List ℝ)
  | pynum (c : ℝ)
  | pyarray (xs : List ℝ)

/-- `nn.softplus`, elementwise `log(1 + exp x)`. -/
noncomputable def softplus (x : ℝ) : ℝ := Real.log (1 + Real.exp x)

/-- `jnp.clip(x, lo, hi) = min(hi, max(lo, x))`. -/
noncomputable def clip (x lo hi : ℝ) : ℝ := min (max x lo) hi

/-- Configuration fields of the `Policy` module that the spread computation
reads (`action_dim`, `std_parameterization`, `std_min`, `std_max`,
`tanh_squash_distribution`, `fixed_std`). -/
structure Policy where
  action_dim : Nat
  std_parameterization : String := "exp"
  std_min : ℝ := 1e-5
  std_max : ℝ := 10.0
  tanh_squash_distribution : Bool := false
  fixed_std : Option PyVal := none

/-- The spread branch of `Policy.__call__` (lines 113-149): selects the raw
(pre-clip) `stds` vector.  The observation-dependent network outputs are
abstracted as the three vectors they would produce (`log_stds` for the `exp`
branch, the raw dense output for the `softplus` branch, and the trainable
`log_stds` parameter for the `uniform` branch); a Python exception is an
`Except.error` carrying the message. -/
noncomputable def Policy.rawStds (p : Policy) (log_stds_net softplus_net log_stds_param : List ℝ) :
    Except String (List ℝ) :=
  match p.fixed_std with
  | none =>
      if p.std_parameterization = "exp" then
        Except.ok (log_stds_net.map Real.exp)
      else if p.std_parameterization = "softplus" then
        Except.ok (softplus_net.map softplus)
      else if p.std_parameterization = "uniform" then
        Except.ok (log_stds_param.map Real.exp)
      else
        Except.error ("Invalid std_parameterization: " ++ p.std_parameterization)
  | some v =>
      if p.std_parameterization = "fixed" then
        match v with
        | PyVal.pylist xs => Except.ok xs
        | PyVal.pynum c => Except.ok (List.replicate p.action_dim c)
        | PyVal.pyarray _ => Except.error "AssertionError: fixed std must be a number"
      else
        Except.error "AssertionError"

/-- Line 153: `stds = jnp.clip(stds, std_min, std_max) * jnp.sqrt(temperature)`,
elementwise over the spread vector. -/
noncomputable def clipScaleStds (stds : List ℝ) (std_min std_max temperature : ℝ) : List ℝ :=
  stds.map (fun s => clip s std_min std_max * Real.sqrt temperature)

/-- A bijector layer of the `TanhMultivariateNormalDiag` chain: the optional
affine rescale `distrax.Lambda(rescale_from_tanh, ...)` with its captured
per-dimension bounds, or the `distrax.Block(distrax.Tanh(), 1)` layer. -/
inductive Layer where
  | rescale (low high : List ℝ)
  | tanhBlock

/-- One component of `rescale_from_tanh`: `(x+1)/2 * (high-low) + low`,
mapping `(-1, 1)` to `(low, high)`. -/
noncomputable def rescaleElem (li hi y : ℝ) : ℝ := (y + 1) / 2 * (hi - li) + li

/-- Mathematical inverse of `rescaleElem` (distrax derives the `Lambda`
bijector's inverse automatically from the forward map). -/
noncomputable def rescaleInvElem (li hi y : ℝ) : ℝ := (y - li) / (hi - li) * 2 - 1

/-- `rescale_from_tanh` applied to a vector, per dimension. -/
noncomputable def rescaleFromTanh (low high x : List ℝ) : List ℝ :=
  List.zipWith (fun p xi => rescaleElem p.1 p.2 xi) (low.zip high) x

/-- Inverse of `rescaleFromTanh`, per dimension. -/
noncomputable def rescaleFromTanhInv (low high x : List ℝ) : List ℝ :=
  List.zipWith (fun p xi => rescaleInvElem p.1 p.2 xi) (low.zip high) x

/-- `jnp.broadcast_to(v, n)` for the shapes the source exercises: a vector
already of length `n` is unchanged; a length-one vector is replicated. -/
noncomputable def broadcastTo (v : List ℝ) (n : Nat) : List ℝ :=
  if v.length = n then v else List.replicate n (v.headD 0)

/-- `forward_log_det_jacobian` of the rescale `Lambda` (lines 187-190):
broadcast `high` and `low` to the sample's shape and return
`jnp.sum(jnp.log(0.5 * (high - low)), -1)`. -/
noncomputable def forward_log_det_jacobian (low high x : List ℝ) : ℝ :=
  (List.zipWith (fun li hi => Real.log (0.5 * (hi - li)))
    (broadcastTo low x.length) (broadcastTo high x.length)).sum

/-- Inverse hyperbolic tangent (not in scope from the library): the inverse of
`tanh` on `(-1, 1)`, used to model the tanh bijector's inverse direction. -/
noncomputable def artanh (x : ℝ) : ℝ := Real.log ((1 + x) / (1 - x)) / 2

/-- Forward map of a single bijector layer. -/
noncomputable def Layer.forward : Layer → List ℝ → List ℝ
  | Layer.rescale low high, x => rescaleFromTanh low high x
  | Layer.tanhBlock, x => x.map Real.tanh

/-- Inverse map of a single bijector layer. -/
noncomputable def Layer.inverse : Layer → List ℝ → List ℝ
  | Layer.rescale low high, x => rescaleFromTanhInv low high x
  | Layer.tanhBlock, x => x.map artanh

/-- `distrax.Chain(layers).forward`: the first layer of the list is the
outermost map, so `Chain([f, g]).forward x = f.forward (g.forward x)`. -/
noncomputable def chainForward (layers : List Layer) (x : List ℝ) : List ℝ :=
  layers.foldr Layer.forward x

/-- `distrax.Chain(layers).inverse`: inverses compose in the opposite order,
`Chain([f, g]).inverse x = g.inverse (f.inverse x)`. -/
noncomputable def chainInverse (layers : List Layer) (x : List ℝ) : List ℝ :=
  layers.foldl (fun acc l => l.inverse acc) x

/-- The state of a constructed `TanhMultivariateNormalDiag`: the base
`MultivariateNormalDiag(loc, scale_diag)` together with the optional bounds
captured by the constructor. -/
structure TanhMultivariateNormalDiag where
  loc : List ℝ
  scale_diag : List ℝ
  low : Option (List ℝ) := none
  high : Option (List ℝ) := none

namespace TanhMultivariateNormalDiag

/-- Lines 179-203: the `layers` list built by `__init__`.  The rescale
`Lambda` is appended only when `not (low is None or high is None)`, i.e. when
both bounds are present; the tanh block is always appended after it. -/
def layers (d : TanhMultivariateNormalDiag) : List Layer :=
  (match d.low, d.high with
   | some l, some h => [Layer.rescale l h]
   | _, _ => []) ++ [Layer.tanhBlock]

/-- The constructor (`__init__`), which contains no `raise` and so never
fails: modelled as an `Except` that is always `ok`, so that "aborts with an
error" is statable about it. -/
def make (loc scale_diag : List ℝ) (low high : Option (List ℝ)) :
    Except String TanhMultivariateNormalDiag :=
  Except.ok { loc := loc, scale_diag := scale_diag, low := low, high := high }

/-- `self.bijector.forward`. -/
noncomputable def forward (d : TanhMultivariateNormalDiag) (x : List ℝ) : List ℝ :=
  chainForward d.layers x

/-- `self.bijector.inverse`. -/
noncomputable def inverse (d : TanhMultivariateNormalDiag) (x : List ℝ) : List ℝ :=
  chainInverse d.layers x

/-- Lines 207-208: `mode() = bijector.forward(distribution.mode())`; the mode
of `MultivariateNormalDiag(loc, scale_diag)` is `loc`. -/
noncomputable def mode (d : TanhMultivariateNormalDiag) : List ℝ :=
  d.forward d.loc

/-- Lines 210-211: `stddev() = bijector.forward(distribution.stddev())`; the
per-dimension standard deviation of the base distribution is `scale_diag`. -/
noncomputable def stddev (d : TanhMultivariateNormalDiag) : List ℝ :=
  d.forward d.scale_diag

end TanhMultivariateNormalDiag

/-- The distribution object returned by `Policy.__call__` (lines 155-166):
either the tanh-squashed variant or a plain `distrax.MultivariateNormalDiag`. -/
inductive PolicyDist where
  | tanh (d : TanhMultivariateNormalDiag)
  | mvnDiag (loc scale_diag : List ℝ)

/-- `Policy.__call__` after the mean projection: compute the raw spread,
clip and temperature-scale it, and build the returned distribution.  `means`
and the three network outputs abstract the observation-dependent dense
layers; when `tanh_squash_distribution` is set the source passes only `loc`
and `scale_diag` to `TanhMultivariateNormalDiag`, leaving `low`/`high` at
their `None` defaults. -/
noncomputable def Policy.call (p : Policy) (means log_stds_net softplus_net log_stds_param : List ℝ)
    (temperature : ℝ) : Except String PolicyDist :=
  match p.rawStds log_stds_net softplus_net log_stds_param with
  | Except.error e => Except.error e
  | Except.ok stds0 =>
      let stds := clipScaleStds stds0 p.std_min p.std_max temperature
      if p.tanh_squash_distribution then
        Except.ok (PolicyDist.tanh { loc := means, scale_diag := stds })
      else
        Except.ok (PolicyDist.mvnDiag means stds)

/-- `scale_diag` of the distribution object returned by `Policy.__call__`:
the spread vector actually used to build the distribution. -/
def PolicyDist.scaleDiag : PolicyDist → List ℝ
  | PolicyDist.tanh d => d.scale_diag
  | PolicyDist.mvnDiag _ sd => sd

section ScalarLemmas

lemma tanh_eq_exp_div (x : ℝ) :
    Real.tanh x = (Real.exp x - Real.exp (-x)) / (Real.exp x + Real.exp (-x)) := by
  have h : Real.exp x + Real.exp (-x) ≠ 0 := by positivity
  rw [Real.tanh_eq_sinh_div_cosh, Real.sinh_eq, Real.cosh_eq]
  field_simp

lemma neg_one_lt_tanh (x : ℝ) : -1 < Real.tanh x := by
  have hpos : (0 : ℝ) < Real.exp x + Real.exp (-x) := by positivity
  rw [tanh_eq_exp_div, lt_div_iff₀ hpos]
  nlinarith [Real.exp_pos x]

lemma tanh_lt_one (x : ℝ) : Real.tanh x < 1 := by
  have hpos : (0 : ℝ) < Real.exp x + Real.exp (-x) := by positivity
  rw [tanh_eq_exp_div, div_lt_one hpos]
  nlinarith [Real.exp_pos (-x)]

lemma tanh_artanh {x : ℝ} (h₁ : -1 < x) (h₂ : x < 1) : Real.tanh (artanh x) = x := by
  have h1 : (0 : ℝ) < 1 + x := by linarith
  have h2 : (0 : ℝ) < 1 - x := by linarith
  have hq : (0 : ℝ) < (1 + x) / (1 - x) := div_pos h1 h2
  have hsq : Real.exp (artanh x) * Real.exp (artanh x) = (1 + x) / (1 - x) := by
    rw [← Real.exp_add, artanh]
    rw [show Real.log ((1 + x) / (1 - x)) / 2 + Real.log ((1 + x) / (1 - x)) / 2
          = Real.log ((1 + x) / (1 - x)) from by ring]
    exact Real.exp_log hq
  have hspos : (0 : ℝ) < Real.exp (artanh x) := Real.exp_pos _
  rw [tanh_eq_exp_div, Real.exp_neg]
  rw [div_eq_iff (by positivity : Real.exp (artanh x) + (Real.exp (artanh x))⁻¹ ≠ 0)]
  have h2' : (1 : ℝ) - x ≠ 0 := ne_of_gt h2
  field_simp at hsq ⊢
  nlinarith [hsq, hspos]

lemma rescaleElem_mem {li hi y : ℝ} (hlh : li < hi) (h₁ : -1 < y) (h₂ : y < 1) :
    li < rescaleElem li hi y ∧ rescaleElem li hi y < hi := by
  unfold rescaleElem
  constructor <;> nlinarith

lemma rescaleInvElem_mem {li hi y : ℝ} (h₁ : li < y) (h₂ : y < hi) :
    -1 < rescaleInvElem li hi y ∧ rescaleInvElem li hi y < 1 := by
  have hlh : (0 : ℝ) < hi - li := by linarith
  have hd : (0 : ℝ) < (y - li) / (hi - li) := div_pos (by linarith) hlh
  have hd1 : (y - li) / (hi - li) < 1 := (div_lt_one hlh).mpr (by linarith)
  unfold rescaleInvElem
  constructor <;> nlinarith

lemma rescaleElem_tanh_artanh_inv {li hi y : ℝ} (h₁ : li < y) (h₂ : y < hi) :
    rescaleElem li hi (Real.tanh (artanh (rescaleInvElem li hi y))) = y := by
  obtain ⟨hm₁, hm₂⟩ := rescaleInvElem_mem h₁ h₂
  rw [tanh_artanh hm₁ hm₂]
  have hlh : hi - li ≠ 0 := by intro h; linarith [sub_pos.mpr (lt_trans h₁ h₂)]
  unfold rescaleElem rescaleInvElem
  field_simp
  ring

lemma clip_mem {s lo hi : ℝ} (h : lo ≤ hi) : lo ≤ clip s lo hi ∧ clip s lo hi ≤ hi := by
  unfold clip
  exact ⟨le_min (le_max_right _ _) h, min_le_right _ _⟩

end ScalarLemmas

section ListLemmas

lemma length_rescaleFromTanh (low high x : List ℝ) :
    (rescaleFromTanh low high x).length = min (min low.length high.length) x.length := by
  simp [rescaleFromTanh]

lemma length_rescaleFromTanhInv (low high x : List ℝ) :
    (rescaleFromTanhInv low high x).length = min (min low.length high.length) x.length := by
  simp [rescaleFromTanhInv]

lemma getElem?_rescaleFromTanh {low high x : List ℝ} {i : Nat}
    (hl : i < low.length) (hh : i < high.length) (hx : i < x.length) :
    (rescaleFromTanh low high x)[i]? = some (rescaleElem low[i] high[i] x[i]) := by
  have hlen : i < (rescaleFromTanh low high x).length := by
    rw [length_rescaleFromTanh]; omega
  rw [List.getElem?_eq_getElem hlen]
  simp [rescaleFromTanh]

lemma getElem?_rescaleFromTanhInv {low high x : List ℝ} {i : Nat}
    (hl : i < low.length) (hh : i < high.length) (hx : i < x.length) :
    (rescaleFromTanhInv low high x)[i]? = some (rescaleInvElem low[i] high[i] x[i]) := by
  have hlen : i < (rescaleFromTanhInv low high x).length := by
    rw [length_rescaleFromTanhInv]; omega
  rw [List.getElem?_eq_getElem hlen]
  simp [rescaleFromTanhInv]

end ListLemmas

/-- C1 (counterexample): supplying `low` without `high` does not abort with a
configuration error: the constructor succeeds, the bijector it builds is the
tanh block alone (no rescale layer), and the first forward call succeeds. -/
theorem partial_bounds_no_abort :
    TanhMultivariateNormalDiag.make [0, 0] [1, 1] (some [-1, -1]) none
      = Except.ok ⟨[0, 0], [1, 1], some [-1, -1], none⟩
    ∧ (⟨[0, 0], [1, 1], some [-1, -1], none⟩ : TanhMultivariateNormalDiag).layers
      = [Layer.tanhBlock]
    ∧ (⟨[0, 0], [1, 1], some [-1, -1], none⟩ : TanhMultivariateNormalDiag).forward [0, 0]
      = [0, 0] := by
  refine ⟨rfl, rfl, ?_⟩
  simp [TanhMultivariateNormalDiag.forward, TanhMultivariateNormalDiag.layers,
    chainForward, Layer.forward, Real.tanh_zero]

/-- C1 (amended): when exactly one of the bound vectors is supplied (`low`
without `high` or vice versa), no error is raised at construction or at a
forward call: the affine rescale is silently omitted and the bijector is the
tanh block alone; the bounds take effect only when both are supplied. -/
theorem partial_bounds_silent_tanh_only (loc sd l : List ℝ) :
    (TanhMultivariateNormalDiag.make loc sd (some l) none
        = Except.ok ⟨loc, sd, some l, none⟩
      ∧ (⟨loc, sd, some l, none⟩ : TanhMultivariateNormalDiag).layers = [Layer.tanhBlock])
    ∧ (TanhMultivariateNormalDiag.make loc sd none (some l)
        = Except.ok ⟨loc, sd, none, some l⟩
      ∧ (⟨loc, sd, none, some l⟩ : TanhMultivariateNormalDiag).layers = [Layer.tanhBlock]) :=
  ⟨⟨rfl, rfl⟩, ⟨rfl, rfl⟩⟩

/-- C5: with `std_parameterization = "fixed"`, the spread before clipping is
exactly the configured constant, independent of the observation-dependent
network outputs: for `action_dim = 2` and `fixed_std = [0.5, 1.5]` it is
exactly `[0.5, 1.5]` for every input, and a scalar `fixed_std = c` yields the
vector `[c, ..., c]` of length `action_dim`. -/
theorem fixed_spread_is_configured_constant :
    (∀ (sm sM : ℝ) (b : Bool) (lsn spn lsp : List ℝ),
      Policy.rawStds ⟨2, "fixed", sm, sM, b, some (PyVal.pylist [0.5, 1.5])⟩ lsn spn lsp
        = Except.ok [0.5, 1.5])
    ∧ (∀ (n : Nat) (c sm sM : ℝ) (b : Bool) (lsn spn lsp : List ℝ),
      Policy.rawStds ⟨n, "fixed", sm, sM, b, some (PyVal.pynum c)⟩ lsn spn lsp
        = Except.ok (List.replicate n c)) :=
  ⟨fun _ _ _ _ _ _ => rfl, fun _ _ _ _ _ _ _ _ => rfl⟩

/-- C6: when `fixed_std` is absent and `std_parameterization` is none of
"exp"/"softplus"/"uniform" — including "fixed" with no fixed value supplied,
and an unknown value such as "gaussian" — the forward call raises a
`ValueError` whose message contains the invalid value, and never silently
falls back to another parameterization. -/
theorem invalid_std_parameterization_error (p : Policy)
    (means lsn spn lsp : List ℝ) (t : ℝ)
    (hfs : p.fixed_std = none)
    (he : p.std_parameterization ≠ "exp")
    (hs : p.std_parameterization ≠ "softplus")
    (hu : p.std_parameterization ≠ "uniform") :
    p.rawStds lsn spn lsp
        = Except.error ("Invalid std_parameterization: " ++ p.std_parameterization)
    ∧ p.call means lsn spn lsp t
        = Except.error ("Invalid std_parameterization: " ++ p.std_parameterization)
    ∧ ∃ s, ("Invalid std_parameterization: " ++ p.std_parameterization)
        = s ++ p.std_parameterization := by
  have h1 : p.rawStds lsn spn lsp
      = Except.error ("Invalid std_parameterization: " ++ p.std_parameterization) := by
    unfold Policy.rawStds
    rw [hfs]
    simp [he, hs, hu]
  refine ⟨h1, ?_, ⟨"Invalid std_parameterization: ", rfl⟩⟩
  unfold Policy.call
  rw [h1]

/-- Witness for C6: the two concrete scenarios, `"gaussian"` (unknown value)
and `"fixed"` without a supplied `fixed_std`. -/
theorem invalid_std_parameterization_error_witness :
    Policy.rawStds ⟨2, "gaussian", 1e-5, 10, false, none⟩ [] [] []
        = Except.error ("Invalid std_parameterization: " ++ "gaussian")
    ∧ Policy.rawStds ⟨2, "fixed", 1e-5, 10, false, none⟩ [] [] []
        = Except.error ("Invalid std_parameterization: " ++ "fixed") :=
  ⟨(invalid_std_parameterization_error ⟨2, "gaussian", 1e-5, 10, false, none⟩ [] [] [] [] 1
      rfl (by decide) (by decide) (by decide)).1,
   (invalid_std_parameterization_error ⟨2, "fixed", 1e-5, 10, false, none⟩ [] [] [] [] 1
      rfl (by decide) (by decide) (by decide)).1⟩

/-- C9: the fixed-spread branch is selected by the presence of `fixed_std`,
not by the enum value: with `fixed_std` supplied, the call fails an assertion
unless `std_parameterization == "fixed"`; the spread is then taken from
`fixed_std` when it is a Python list or a scalar number, and any other array
value fails the "fixed std must be a number" assertion. -/
theorem fixed_std_branch (p : Policy) (lsn spn lsp : List ℝ) (v : PyVal)
    (hfs : p.fixed_std = some v) :
    (p.std_parameterization ≠ "fixed" →
      p.rawStds lsn spn lsp = Except.error "AssertionError")
    ∧ (p.std_parameterization = "fixed" →
        (∀ xs, v = PyVal.pylist xs → p.rawStds lsn spn lsp = Except.ok xs)
        ∧ (∀ c, v = PyVal.pynum c →
            p.rawStds lsn spn lsp = Except.ok (List.replicate p.action_dim c))
        ∧ (∀ xs, v = PyVal.pyarray xs →
            p.rawStds lsn spn lsp
              = Except.error "AssertionError: fixed std must be a number")) := by
  unfold Policy.rawStds
  rw [hfs]
  constructor
  · intro hne
    simp [hne]
  · intro heq
    simp only [heq, if_pos rfl]
    exact ⟨fun xs hv => by rw [hv]; simp, fun c hv => by rw [hv]; simp,
      fun xs hv => by rw [hv]; simp⟩

/-- Witness for C9: a `jnp.ndarray`-style `fixed_std` fails the numeric
assertion even under `"fixed"`, a list value is taken verbatim, and a supplied
`fixed_std` with a non-"fixed" enum fails the first assertion. -/
theorem fixed_std_branch_witness :
    Policy.rawStds ⟨3, "fixed", 1e-5, 10, false, some (PyVal.pyarray [1, 2, 3])⟩ [] [] []
        = Except.error "AssertionError: fixed std must be a number"
    ∧ Policy.rawStds ⟨2, "fixed", 1e-5, 10, false, some (PyVal.pylist [1, 2])⟩ [] [] []
        = Except.ok [1, 2]
    ∧ Policy.rawStds ⟨2, "exp", 1e-5, 10, false, some (PyVal.pynum 1)⟩ [] [] []
        = Except.error "AssertionError" :=
  ⟨((fixed_std_branch ⟨3, "fixed", 1e-5, 10, false, some (PyVal.pyarray [1, 2, 3])⟩
      [] [] [] (PyVal.pyarray [1, 2, 3]) rfl).2 rfl).2.2 [1, 2, 3] rfl,
   ((fixed_std_branch ⟨2, "fixed", 1e-5, 10, false, some (PyVal.pylist [1, 2])⟩
      [] [] [] (PyVal.pylist [1, 2]) rfl).2 rfl).1 [1, 2] rfl,
   (fixed_std_branch ⟨2, "exp", 1e-5, 10, false, some (PyVal.pynum 1)⟩
      [] [] [] (PyVal.pynum 1) rfl).1 (by decide)⟩

lemma Policy.call_eq (p : Policy) (means lsn spn lsp : List ℝ) (t : ℝ) :
    p.call means lsn spn lsp t
      = match p.rawStds lsn spn lsp with
        | Except.error e => Except.error e
        | Except.ok stds0 =>
            if p.tanh_squash_distribution then
              Except.ok (PolicyDist.tanh
                ⟨means, clipScaleStds stds0 p.std_min p.std_max t, none, none⟩)
            else
              Except.ok (PolicyDist.mvnDiag means
                (clipScaleStds stds0 p.std_min p.std_max t)) := rfl

/-- C2: for every spread vector produced by any of the parameterizations and
every temperature ≥ 0 (with `std_min ≤ std_max`), the spread actually used to
build the returned distribution equals
`clip(spread, std_min, std_max) * sqrt(temperature)` and therefore lies
elementwise in `[std_min * sqrt(temperature), std_max * sqrt(temperature)]`. -/
theorem spread_clipped_scaled (p : Policy) (means lsn spn lsp : List ℝ)
    (t : ℝ) (d : PolicyDist) (ht : 0 ≤ t) (hmm : p.std_min ≤ p.std_max)
    (hcall : p.call means lsn spn lsp t = Except.ok d) :
    ∃ stds0, p.rawStds lsn spn lsp = Except.ok stds0
      ∧ d.scaleDiag = clipScaleStds stds0 p.std_min p.std_max t
      ∧ ∀ s ∈ d.scaleDiag,
          p.std_min * Real.sqrt t ≤ s ∧ s ≤ p.std_max * Real.sqrt t := by
  rw [Policy.call_eq] at hcall
  cases hraw : p.rawStds lsn spn lsp with
  | error e =>
      rw [hraw] at hcall
      exact absurd hcall (by simp)
  | ok stds0 =>
      rw [hraw] at hcall
      have hbounds : ∀ s ∈ clipScaleStds stds0 p.std_min p.std_max t,
          p.std_min * Real.sqrt t ≤ s ∧ s ≤ p.std_max * Real.sqrt t := by
        intro s hsmem
        simp only [clipScaleStds, List.mem_map] at hsmem
        obtain ⟨s0, _, rfl⟩ := hsmem
        have hc := clip_mem (s := s0) hmm
        have hsq : (0 : ℝ) ≤ Real.sqrt t := Real.sqrt_nonneg t
        exact ⟨mul_le_mul_of_nonneg_right hc.1 hsq, mul_le_mul_of_nonneg_right hc.2 hsq⟩
      cases hb : p.tanh_squash_distribution with
      | false =>
          simp only [hb, if_false, Bool.false_eq_true, reduceIte,
            Except.ok.injEq] at hcall
          subst hcall
          exact ⟨stds0, rfl, rfl, hbounds⟩
      | true =>
          simp only [hb, if_true, Except.ok.injEq] at hcall
          subst hcall
          exact ⟨stds0, rfl, rfl, hbounds⟩

/-- Witness for C2: the `exp` parameterization at a concrete input with
`std_min = 0`, `std_max = 1`, `temperature = 1`. -/
theorem spread_clipped_scaled_witness :
    ∃ stds0,
      Policy.rawStds ⟨1, "exp", 0, 1, false, none⟩ [0] [0] [0] = Except.ok stds0
      ∧ (PolicyDist.mvnDiag [0] (clipScaleStds [Real.exp 0] 0 1 1)).scaleDiag
          = clipScaleStds stds0 0 1 1
      ∧ ∀ s ∈ (PolicyDist.mvnDiag [0] (clipScaleStds [Real.exp 0] 0 1 1)).scaleDiag,
          0 * Real.sqrt 1 ≤ s ∧ s ≤ 1 * Real.sqrt 1 :=
  spread_clipped_scaled ⟨1, "exp", 0, 1, false, none⟩ [0] [0] [0] [0] 1
    (PolicyDist.mvnDiag [0] (clipScaleStds [Real.exp 0] 0 1 1))
    (by norm_num) (by norm_num) rfl

/-- C10: the Policy head always constructs the tanh-squashed distribution
without `low`/`high`: under `tanh_squash_distribution = true` a successful
call returns a `TanhMultivariateNormalDiag` with both bounds `None`, whose
bijector is the tanh block alone, whose forward image lies in `(-1, 1)` per
dimension with every such point attained; and a rescale layer appears in the
bijector iff both bounds are supplied to the constructor directly. -/
theorem policy_tanh_distribution_unbounded (p : Policy)
    (means lsn spn lsp : List ℝ) (t : ℝ) (d : TanhMultivariateNormalDiag)
    (hb : p.tanh_squash_distribution = true)
    (hcall : p.call means lsn spn lsp t = Except.ok (PolicyDist.tanh d)) :
    d.low = none ∧ d.high = none ∧ d.layers = [Layer.tanhBlock]
    ∧ (∀ x, d.forward x = x.map Real.tanh)
    ∧ (∀ x, ∀ y ∈ d.forward x, -1 < y ∧ y < 1)
    ∧ (∀ y : List ℝ, (∀ z ∈ y, -1 < z ∧ z < 1) → d.forward (y.map artanh) = y)
    ∧ (∀ e : TanhMultivariateNormalDiag,
        (∃ l h, Layer.rescale l h ∈ e.layers)
          ↔ ∃ l h, e.low = some l ∧ e.high = some h) := by
  rw [Policy.call_eq] at hcall
  cases hraw : p.rawStds lsn spn lsp with
  | error e =>
      rw [hraw] at hcall
      exact absurd hcall (by simp)
  | ok stds0 =>
      rw [hraw] at hcall
      simp only [hb, if_true, Except.ok.injEq, PolicyDist.tanh.injEq] at hcall
      subst hcall
      refine ⟨rfl, rfl, rfl, fun x => rfl, ?_, ?_, ?_⟩
      · intro x y hy
        simp only [show (⟨means, clipScaleStds stds0 p.std_min p.std_max t, none, none⟩ :
            TanhMultivariateNormalDiag).forward x = x.map Real.tanh from rfl,
          List.mem_map] at hy
        obtain ⟨z, _, rfl⟩ := hy
        exact ⟨neg_one_lt_tanh z, tanh_lt_one z⟩
      · intro y hy
        rw [show (⟨means, clipScaleStds stds0 p.std_min p.std_max t, none, none⟩ :
            TanhMultivariateNormalDiag).forward (y.map artanh)
            = (y.map artanh).map Real.tanh from rfl, List.map_map]
        have hcong : y.map (Real.tanh ∘ artanh) = y.map id :=
          List.map_congr_left fun z hz => tanh_artanh (hy z hz).1 (hy z hz).2
        rw [hcong, List.map_id]
      · intro e
        constructor
        · rintro ⟨l, h, hmem⟩
          unfold TanhMultivariateNormalDiag.layers at hmem
          cases hel : e.low with
          | none => rw [hel] at hmem; simp at hmem
          | some l0 =>
              cases heh : e.high with
              | none => rw [hel, heh] at hmem; simp at hmem
              | some h0 => exact ⟨l0, h0, rfl, rfl⟩
        · rintro ⟨l, h, hel, heh⟩
          refine ⟨l, h, ?_⟩
          unfold TanhMultivariateNormalDiag.layers
          rw [hel, heh]
          simp

/-- Witness for C10: a concrete tanh-squashed Policy call. -/
theorem policy_tanh_distribution_unbounded_witness :
    (⟨[0], clipScaleStds [Real.exp 0] 0 1 1, none, none⟩ :
        TanhMultivariateNormalDiag).layers = [Layer.tanhBlock] :=
  (policy_tanh_distribution_unbounded ⟨1, "exp", 0, 1, true, none⟩ [0] [0] [0] [0] 1
    ⟨[0], clipScaleStds [Real.exp 0] 0 1 1, none, none⟩ rfl rfl).2.2.1

/-- C3: when both bounds are supplied, the forward map applied to a base
sample `x` is the affine rescale applied after tanh (tanh first), where the
rescale is exactly `y ↦ ((y + 1) / 2) * (high - low) + low`, which maps
`(-1, 1)` into `(low, high)` per dimension. -/
theorem forward_is_rescale_after_tanh :
    (∀ (loc sd l h x : List ℝ),
      (⟨loc, sd, some l, some h⟩ : TanhMultivariateNormalDiag).forward x
        = rescaleFromTanh l h (x.map Real.tanh))
    ∧ (∀ li hi y : ℝ, rescaleElem li hi y = (y + 1) / 2 * (hi - li) + li)
    ∧ (∀ li hi y : ℝ, li < hi → -1 < y → y < 1 →
        li < rescaleElem li hi y ∧ rescaleElem li hi y < hi) :=
  ⟨fun _ _ _ _ _ => rfl, fun _ _ _ => rfl,
   fun _ _ _ h1 h2 h3 => rescaleElem_mem h1 h2 h3⟩

/-- Witness for C3 at bounds `(0, 2)` and base sample `0`. -/
theorem forward_is_rescale_after_tanh_witness :
    (⟨[0], [1], some [0], some [2]⟩ : TanhMultivariateNormalDiag).forward [0]
        = rescaleFromTanh [0] [2] ([0].map Real.tanh)
    ∧ ((0 : ℝ) < rescaleElem 0 2 0 ∧ rescaleElem 0 2 0 < 2) :=
  ⟨forward_is_rescale_after_tanh.1 [0] [1] [0] [2] [0],
   forward_is_rescale_after_tanh.2.2 0 2 0 (by norm_num) (by norm_num) (by norm_num)⟩

/-- C4: for matching shapes and `low < high` elementwise, the forward
log-det-Jacobian of the affine rescale layer equals the sum over action
dimensions of `log(0.5 * (high - low))`, and its value does not depend on the
sample `x`. -/
theorem rescale_log_det_jacobian_constant (low high x : List ℝ) (n : Nat)
    (hl : low.length = n) (hh : high.length = n) (hx : x.length = n)
    (hlh : ∀ (i : Nat) (li hi_ : ℝ), low[i]? = some li → high[i]? = some hi_ → li < hi_) :
    forward_log_det_jacobian low high x
      = (List.zipWith (fun li hi_ => Real.log (0.5 * (hi_ - li))) low high).sum
    ∧ ∀ y : List ℝ, y.length = x.length →
        forward_log_det_jacobian low high y = forward_log_det_jacobian low high x := by
  have hb : ∀ z : List ℝ, z.length = n →
      forward_log_det_jacobian low high z
        = (List.zipWith (fun li hi_ => Real.log (0.5 * (hi_ - li))) low high).sum := by
    intro z hz
    unfold forward_log_det_jacobian broadcastTo
    rw [if_pos (by omega), if_pos (by omega)]
  refine ⟨hb x hx, fun y hy => ?_⟩
  rw [hb y (by omega), hb x hx]

/-- Witness for C4 with `low = [0]`, `high = [1]` and two distinct samples. -/
theorem rescale_log_det_jacobian_constant_witness :
    forward_log_det_jacobian [0] [1] [5]
      = (List.zipWith (fun li hi_ => Real.log (0.5 * (hi_ - li))) [(0 : ℝ)] [1]).sum
    ∧ forward_log_det_jacobian [0] [1] [-3] = forward_log_det_jacobian [0] [1] [5] := by
  have h := rescale_log_det_jacobian_constant [0] [1] [5] 1 rfl rfl rfl
    (by
      rintro (_ | i) li hi_ h1 h2
      · simp only [List.getElem?_cons_zero, Option.some.injEq] at h1 h2
        rw [← h1, ← h2]; norm_num
      · simp at h1)
  exact ⟨h.1, h.2 [-3] rfl⟩

/-- C7: `mode()` equals the forward transform chain applied to the base
distribution's mode (its `loc`); with both bounds and `low < high` it lies
strictly inside `(low, high)` per dimension; and for `low = [-2,-2]`,
`high = [2,2]`, `mean = [0,0]` the mode is exactly `[0,0]`. -/
theorem mode_props :
    (∀ d : TanhMultivariateNormalDiag, d.mode = chainForward d.layers d.loc)
    ∧ (∀ (l h loc sd : List ℝ) (n : Nat), l.length = n → h.length = n → loc.length = n →
        ∀ (i : Nat) (li hi_ mi : ℝ), l[i]? = some li → h[i]? = some hi_ →
          (⟨loc, sd, some l, some h⟩ : TanhMultivariateNormalDiag).mode[i]? = some mi →
          li < hi_ → li < mi ∧ mi < hi_)
    ∧ (∀ sd : List ℝ,
        (⟨[0, 0], sd, some [-2, -2], some [2, 2]⟩ : TanhMultivariateNormalDiag).mode
          = [0, 0]) := by
  refine ⟨fun d => rfl, ?_, ?_⟩
  · intro l h loc sd n hl hh hloc i li hi_ mi hli hhi hmi hlih
    have hmode : (⟨loc, sd, some l, some h⟩ : TanhMultivariateNormalDiag).mode
        = rescaleFromTanh l h (loc.map Real.tanh) := rfl
    rw [hmode] at hmi
    have hbl : i < l.length := by
      by_contra hcon
      rw [List.getElem?_eq_none (by omega)] at hli
      exact absurd hli (by simp)
    have hbh : i < h.length := by omega
    have hbm : i < (loc.map Real.tanh).length := by
      rw [List.length_map]; omega
    rw [getElem?_rescaleFromTanh hbl hbh hbm] at hmi
    rw [List.getElem?_eq_getElem hbl] at hli
    rw [List.getElem?_eq_getElem hbh] at hhi
    obtain rfl : li = l[i] := (Option.some.inj hli).symm
    obtain rfl : hi_ = h[i] := (Option.some.inj hhi).symm
    obtain rfl : mi = rescaleElem l[i] h[i] ((loc.map Real.tanh)[i]) :=
      (Option.some.inj hmi).symm
    rw [List.getElem_map]
    exact rescaleElem_mem hlih (neg_one_lt_tanh _) (tanh_lt_one _)
  · intro sd
    show rescaleFromTanh [-2, -2] [2, 2] ([0, 0].map Real.tanh) = [0, 0]
    simp [rescaleFromTanh, rescaleElem, Real.tanh_zero]
    norm_num

/-- Witness for C7 at `low = [0]`, `high = [2]`, `mean = [0]`. -/
theorem mode_props_witness :
    ∃ mi : ℝ, (⟨[0], [1], some [0], some [2]⟩ : TanhMultivariateNormalDiag).mode[0]?
        = some mi ∧ 0 < mi ∧ mi < 2 := by
  have hm : (⟨[0], [1], some [0], some [2]⟩ : TanhMultivariateNormalDiag).mode[0]?
      = some (rescaleElem 0 2 (Real.tanh 0)) := rfl
  exact ⟨rescaleElem 0 2 (Real.tanh 0), hm,
    mode_props.2.1 [0] [2] [0] [1] 1 rfl rfl rfl 0 0 2 _ rfl rfl hm (by norm_num)⟩

/-- C8: with both bounds supplied, `forward (inverse x) = x` for every action
vector `x` strictly inside `(low, high)` per dimension. -/
theorem forward_inverse_identity (loc sd l h x : List ℝ) (n : Nat)
    (hl : l.length = n) (hh : h.length = n) (hx : x.length = n)
    (hin : ∀ (i : Nat) (li hi_ xi : ℝ), l[i]? = some li → h[i]? = some hi_ →
      x[i]? = some xi → li < xi ∧ xi < hi_) :
    (⟨loc, sd, some l, some h⟩ : TanhMultivariateNormalDiag).forward
      ((⟨loc, sd, some l, some h⟩ : TanhMultivariateNormalDiag).inverse x) = x := by
  have hinv : (⟨loc, sd, some l, some h⟩ : TanhMultivariateNormalDiag).inverse x
      = (rescaleFromTanhInv l h x).map artanh := rfl
  have hfwd : ∀ z, (⟨loc, sd, some l, some h⟩ : TanhMultivariateNormalDiag).forward z
      = rescaleFromTanh l h (z.map Real.tanh) := fun z => rfl
  rw [hinv, hfwd, List.map_map]
  apply List.ext_getElem?
  intro i
  by_cases hi : i < n
  · have hbl : i < l.length := by omega
    have hbh : i < h.length := by omega
    have hbx : i < x.length := by omega
    have hlen2 : i < ((rescaleFromTanhInv l h x).map (Real.tanh ∘ artanh)).length := by
      rw [List.length_map, length_rescaleFromTanhInv]; omega
    have hmap : ((rescaleFromTanhInv l h x).map (Real.tanh ∘ artanh))[i]?
        = some ((Real.tanh ∘ artanh) (rescaleInvElem l[i] h[i] x[i])) := by
      rw [List.getElem?_map, getElem?_rescaleFromTanhInv hbl hbh hbx]
      rfl
    have hmlv : ((rescaleFromTanhInv l h x).map (Real.tanh ∘ artanh))[i]
        = Real.tanh (artanh (rescaleInvElem l[i] h[i] x[i])) := by
      have h2 := hmap
      rw [List.getElem?_eq_getElem hlen2] at h2
      exact Option.some.inj h2
    rw [getElem?_rescaleFromTanh hbl hbh hlen2, hmlv, List.getElem?_eq_getElem hbx]
    have hio := hin i (l[i]) (h[i]) (x[i]) (List.getElem?_eq_getElem hbl)
      (List.getElem?_eq_getElem hbh) (List.getElem?_eq_getElem hbx)
    rw [rescaleElem_tanh_artanh_inv hio.1 hio.2]
  · rw [List.getElem?_eq_none
        (by rw [length_rescaleFromTanh, List.length_map, length_rescaleFromTanhInv]; omega),
      List.getElem?_eq_none (by omega)]

/-- Witness for C8 at `low = [0]`, `high = [2]`, `x = [1]`. -/
theorem forward_inverse_identity_witness :
    (⟨[0], [1], some [0], some [2]⟩ : TanhMultivariateNormalDiag).forward
      ((⟨[0], [1], some [0], some [2]⟩ : TanhMultivariateNormalDiag).inverse [1]) = [1] :=
  forward_inverse_identity [0] [1] [0] [2] [1] 1 rfl rfl rfl
    (by
      rintro (_ | i) li hi_ xi h1 h2 h3
      · simp only [List.getElem?_cons_zero, Option.some.injEq] at h1 h2 h3
        rw [← h1, ← h2, ← h3]
        norm_num
      · simp at h1)
